import Mathlib

/-!
# Device operations facade (`pkg/util/sys/device.go`)

A shallow embedding of the device/filesystem facade.  Every facade function
takes the injected command executor explicitly, as the Go code does, and
threads a `World`: the state behind the executor and the operating system,
the package-level `currentUser` variable, and the trace of external
interactions performed so far.
-/

set_option autoImplicit false

namespace Sys

/-! ## Data model -/

/-- The fields of `os/user.User`. -/
structure User where
  Uid : String
  Gid : String
  Username : String
  Name : String
  HomeDir : String
deriving DecidableEq, Repr

/-- An error value returned by the command executor: either a
`*exec.CommandError`, which exposes an exit status, or any other error. -/
inductive ExecError where
  | commandError (exitStatus : Int) (msg : String)
  | otherError (msg : String)
deriving DecidableEq, Repr

/-- The text `%+v` prints for an executor error (its `Error()` string). -/
def ExecError.Error : ExecError → String
  | .commandError _ msg => msg
  | .otherError msg => msg

/-- One interaction of the facade with something outside it. -/
inductive Event where
  | executeCommand (label program : String) (args : List String)
  | executeCommandPipeline (label command : String)
  | mkdirAll (path : String) (perm : Nat)
  | userCurrent
  | logPrintf (msg : String)
deriving DecidableEq, Repr

/-- The `exec.Executor` interface.  `σ` is the state of the machine the
executor acts on; a Go `error` result is `none` for `nil`. -/
structure Executor (σ : Type) where
  ExecuteCommand : String → String → List String → σ → Option ExecError × σ
  ExecuteCommandPipeline : String → String → σ → Except ExecError String × σ

/-- The two standard-library calls the facade makes besides the executor:
`os.MkdirAll` and `user.Current` (which returns a nil user with every
non-nil error). -/
structure OS (σ : Type) where
  MkdirAll : String → Nat → σ → σ
  userCurrent : σ → Except String User × σ

/-- Everything a facade call can read or change. -/
structure World (σ : Type) where
  host : σ
  currentUser : Option User
  trace : List Event

variable {σ : Type}

/-- Whether an event is an invocation of the command executor. -/
def Event.isInvocation : Event → Bool
  | .executeCommand _ _ _ => true
  | .executeCommandPipeline _ _ => true
  | _ => false

/-- Whether an event is a `user.Current` lookup. -/
def Event.isLookup : Event → Bool
  | .userCurrent => true
  | _ => false

/-- Number of executor invocations recorded in a trace. -/
def invocations (t : List Event) : Nat := t.countP Event.isInvocation

/-- Number of `user.Current` lookups recorded in a trace. -/
def lookups (t : List Event) : Nat := t.countP Event.isLookup

/-- `log.Printf(msg)`. -/
def logPrintf (msg : String) (w : World σ) : World σ :=
  { w with trace := w.trace ++ [Event.logPrintf msg] }

/-- `executor.ExecuteCommand(label, program, args...)`. -/
def executeCommand (executor : Executor σ) (label program : String) (args : List String)
    (w : World σ) : Option ExecError × World σ :=
  let r := executor.ExecuteCommand label program args w.host
  (r.1, { w with host := r.2, trace := w.trace ++ [Event.executeCommand label program args] })

/-- `executor.ExecuteCommandPipeline(label, command)`. -/
def executeCommandPipeline (executor : Executor σ) (label command : String)
    (w : World σ) : Except ExecError String × World σ :=
  let r := executor.ExecuteCommandPipeline label command w.host
  (r.1, { w with host := r.2, trace := w.trace ++ [Event.executeCommandPipeline label command] })

/-- `os.MkdirAll(path, perm)`; the caller discards its result. -/
def mkdirAll (os : OS σ) (path : String) (perm : Nat) (w : World σ) : World σ :=
  { w with host := os.MkdirAll path perm w.host, trace := w.trace ++ [Event.mkdirAll path perm] }

/-- `user.Current()`. -/
def userCurrent (os : OS σ) (w : World σ) : Except String User × World σ :=
  let r := os.userCurrent w.host
  (r.1, { w with host := r.2, trace := w.trace ++ [Event.userCurrent] })

/-- `fmt.Errorf("command %s failed: %+v", cmd, err)`. -/
def commandFailed (cmd err : String) : String :=
  "command " ++ cmd ++ " failed: " ++ err

/-! ## The facade -/

def GetDeviceFilesystem (device : String) (executor : Executor σ) (w : World σ) :
    (String × Option String) × World σ :=
  let cmd := "get filesystem type for " ++ device
  let r := executeCommandPipeline executor cmd
    ("df --output=source,fstype | grep '^/dev/" ++ device ++ " ' | awk '\x7bprint $2\x7d'") w
  match r.1 with
  | .error err => (("", some (commandFailed cmd err.Error)), r.2)
  | .ok devFS => ((devFS, none), r.2)

def FormatDevice (devicePath : String) (executor : Executor σ) (w : World σ) :
    Option String × World σ :=
  let cmd := "mkfs.ext4 " ++ devicePath
  let r := executeCommand executor cmd "sudo" ["mkfs.ext4", devicePath] w
  match r.1 with
  | some err => (some (commandFailed cmd err.Error), r.2)
  | none => (none, r.2)

def GetDiskUUID (deviceName : String) (executor : Executor σ) (w : World σ) :
    (String × Option String) × World σ :=
  let cmd := "get disk " ++ deviceName ++ " uuid"
  let r := executeCommandPipeline executor cmd
    ("sgdisk -p /dev/" ++ deviceName ++ " | grep 'Disk identifier (GUID)' | awk '\x7bprint $4\x7d'") w
  match r.1 with
  | .error _ => (("", none), logPrintf ("unknown disk uuid for /dev/" ++ deviceName) r.2)
  | .ok uuid => ((uuid, none), r.2)

def GetDeviceMountPoint (deviceName : String) (executor : Executor σ) (w : World σ) :
    (String × Option String) × World σ :=
  let cmd := "get mount point for " ++ deviceName
  let r := executeCommandPipeline executor cmd
    ("mount | grep '^/dev/" ++ deviceName ++ " on' | awk '\x7bprint $3\x7d'") w
  match r.1 with
  | .error err => (("", some (commandFailed cmd err.Error)), r.2)
  | .ok mountPoint => ((mountPoint, none), r.2)

def GetDeviceFromMountPoint (mountPoint : String) (executor : Executor σ) (w : World σ) :
    (String × Option String) × World σ :=
  let cmd := "get device from mount point " ++ mountPoint
  let r := executeCommandPipeline executor cmd
    ("mount | grep 'on " ++ mountPoint ++ " ' | awk '\x7bprint $1\x7d'") w
  match r.1 with
  | .error err => (("", some (commandFailed cmd err.Error)), r.2)
  | .ok device => ((device, none), r.2)

def MountDeviceWithOptions (os : OS σ) (devicePath mountPath options : String)
    (executor : Executor σ) (w : World σ) : Option String × World σ :=
  let args : List String :=
    if options ≠ "" then ["mount", "-o", options, devicePath, mountPath]
    else ["mount", devicePath, mountPath]
  let w1 := mkdirAll os mountPath 0o755 w
  let cmd := "mount " ++ devicePath
  let r := executeCommand executor cmd "sudo" args w1
  match r.1 with
  | some err => (some (commandFailed cmd err.Error), r.2)
  | none => (none, r.2)

def MountDevice (os : OS σ) (devicePath mountPath : String) (executor : Executor σ)
    (w : World σ) : Option String × World σ :=
  MountDeviceWithOptions os devicePath mountPath "" executor w

def UnmountDevice (devicePath : String) (executor : Executor σ) (w : World σ) :
    Option String × World σ :=
  let cmd := "umount " ++ devicePath
  let r := executeCommand executor cmd "sudo" ["umount", devicePath] w
  match r.1 with
  | some err =>
    match err with
    | .commandError exitStatus _ =>
      if exitStatus = 32 then
        (none, logPrintf ("ignoring exit status 32 from unmount of device " ++ devicePath
          ++ ", err:" ++ err.Error) r.2)
      else (some (commandFailed cmd err.Error), r.2)
    | .otherError _ => (some (commandFailed cmd err.Error), r.2)
  | none => (none, r.2)

def DoesDeviceHaveChildren (device : String) (executor : Executor σ) (w : World σ) :
    (Bool × Option String) × World σ :=
  let cmd := "check children for device " ++ device
  let r := executeCommandPipeline executor cmd
    ("lsblk --all -n -l --output PKNAME | grep \"^" ++ device ++ "$\" | awk '\x7bprint $0\x7d'") w
  match r.1 with
  | .error err => ((false, some (commandFailed cmd err.Error)), r.2)
  | .ok children => ((children != "", none), r.2)

/-- The second half of `ChownForCurrentUser`: `if currentUser != nil { ... }`. -/
def chownIfResolved (path : String) (executor : Executor σ) (w : World σ) : World σ :=
  match w.currentUser with
  | some u =>
    let cmd := "chown " ++ path
    let r := executeCommand executor cmd "sudo"
      ["chown", "-R", u.Username ++ ":" ++ u.Username, path] w
    match r.1 with
    | some err => logPrintf (commandFailed cmd err.Error) r.2
    | none => r.2
  | none => w

def ChownForCurrentUser (os : OS σ) (path : String) (executor : Executor σ)
    (w : World σ) : World σ :=
  match w.currentUser with
  | none =>
    let r := userCurrent os w
    match r.1 with
    | .error err =>
      logPrintf ("unable to find current user: " ++ err) { r.2 with currentUser := none }
    | .ok u => chownIfResolved path executor { r.2 with currentUser := some u }
  | some _ => chownIfResolved path executor w

/-! ## A simulated host

The executor is an external collaborator.  To state what the pipelines built
by the facade compute, the definitions below give a simulated executor over a
host described by the lines its `mount` and `lsblk` commands print.  It runs
the three pipeline shapes the facade builds for those two commands
(`SOURCE | grep PATTERN | awk 'print $N'`), with `grep` on the literal,
`.`, `*`, `^`, `$` and backslash-escape fragment of POSIX basic regular
expressions and `awk` with default field splitting, and trims the output as
the executor contract says.  Anything outside that fragment makes the
simulated pipeline fail.
-/

/-- Go's `unicode.IsSpace`, the characters `strings.TrimSpace` removes. -/
def isSpace (c : Char) : Bool :=
  let n := c.toNat
  (9 ≤ n && n ≤ 13) || n == 32 || n == 0x85 || n == 0xA0 || n == 0x1680 ||
  (0x2000 ≤ n && n ≤ 0x200A) || n == 0x2028 || n == 0x2029 || n == 0x202F ||
  n == 0x205F || n == 0x3000

/-- The text of `strings.TrimSpace`: leading and trailing white space removed. -/
def trimSpace (s : List Char) : List Char :=
  ((s.dropWhile isSpace).reverse.dropWhile isSpace).reverse

/-- The characters separating `awk` fields under the default `FS`. -/
def isBlank (c : Char) : Bool :=
  c.toNat == 32 || c.toNat == 9 || c.toNat == 10

/-- Default `awk` field splitting: maximal runs of non-blank characters.
`cur` is the field being read. -/
def splitFields : List Char → List Char → List (List Char)
  | cur, [] => if cur.isEmpty then [] else [cur]
  | cur, c :: r =>
    if isBlank c then
      if cur.isEmpty then splitFields [] r else cur :: splitFields [] r
    else splitFields (cur ++ [c]) r

/-- The value of `$n` on a line: the whole line for `$0`, the `n`-th field
otherwise, empty when the line has fewer fields. -/
def awkField (n : Nat) (line : List Char) : List Char :=
  if n = 0 then line else (splitFields [] line).getD (n - 1) []

/-- Lines written one after the other, each ended by a newline. -/
def unlines : List (List Char) → List Char
  | [] => []
  | l :: ls => l ++ '\n' :: unlines ls

/-- The output of `awk 'print $n'` on the given input lines. -/
def awkPrint (n : Nat) (lines : List (List Char)) : List Char :=
  unlines (lines.map (awkField n))

/-- One character position of a basic regular expression. -/
inductive Atom where
  | lit (c : Char)
  | any
deriving DecidableEq, Repr

/-- An atom, possibly followed by `*`. -/
structure Piece where
  atom : Atom
  star : Bool
deriving DecidableEq, Repr

/-- A parsed basic regular expression. -/
structure BRE where
  anchorStart : Bool
  pieces : List Piece
  anchorEnd : Bool
deriving DecidableEq, Repr

/-- The characters a backslash may precede in the modelled fragment. -/
def isSpecial (c : Char) : Bool :=
  c == '.' || c == '*' || c == '[' || c == ']' || c == '^' || c == '$' || c == '\\'

/-- Parse the part of a basic regular expression after its optional leading
`^`.  `acc` holds the pieces read so far, last first.  A `*` with nothing
before it is an ordinary character, a `$` is an anchor only at the very end;
bracket expressions, other backslash sequences and `**` are outside the
modelled fragment. -/
def parsePieces : List Piece → List Char → Option (List Piece × Bool)
  | acc, [] => some (acc.reverse, false)
  | acc, c :: r =>
    if c == '\\' then
      match r with
      | [] => none
      | d :: r' => if isSpecial d then parsePieces (⟨Atom.lit d, false⟩ :: acc) r' else none
    else if c == '[' then none
    else if c == '.' then parsePieces (⟨Atom.any, false⟩ :: acc) r
    else if c == '*' then
      match acc with
      | [] => parsePieces [⟨Atom.lit c, false⟩] r
      | p :: acc' => if p.star then none else parsePieces (⟨p.atom, true⟩ :: acc') r
    else if c == '$' && r.isEmpty then some (acc.reverse, true)
    else parsePieces (⟨Atom.lit c, false⟩ :: acc) r

/-- Parse a basic regular expression of the modelled fragment. -/
def parseBRE (pat : List Char) : Option BRE :=
  match pat with
  | [] => some ⟨false, [], false⟩
  | c :: r =>
    if c == '^' then (parsePieces [] r).map (fun p => ⟨true, p.1, p.2⟩)
    else (parsePieces [] (c :: r)).map (fun p => ⟨false, p.1, p.2⟩)

/-- Whether an atom matches a character. -/
def Atom.accepts : Atom → Char → Bool
  | .lit d, c => c == d
  | .any, _ => true

/-- Matching of `a*` followed by the rest of the expression, `k`. -/
def starLoop (a : Atom) (k : List Char → Bool) : List Char → Bool
  | [] => k []
  | c :: s => k (c :: s) || (a.accepts c && starLoop a k s)

/-- Whether the pieces match at the beginning of the text. -/
def matchHere (anchorEnd : Bool) : List Piece → List Char → Bool
  | [], s => !anchorEnd || s.isEmpty
  | p :: ps, s =>
    if p.star then starLoop p.atom (matchHere anchorEnd ps) s
    else
      match s with
      | [] => false
      | c :: s' => p.atom.accepts c && matchHere anchorEnd ps s'

/-- Whether the pieces match at some position of the text. -/
def matchFrom (anchorEnd : Bool) (ps : List Piece) : List Char → Bool
  | [] => matchHere anchorEnd ps []
  | c :: s => matchHere anchorEnd ps (c :: s) || matchFrom anchorEnd ps s

/-- Whether `grep` selects the line. -/
def BRE.selects (re : BRE) (line : List Char) : Bool :=
  if re.anchorStart then matchHere re.anchorEnd re.pieces line
  else matchFrom re.anchorEnd re.pieces line

/-- The text between a fixed beginning and a fixed end, when the command line
has that shape. -/
def between (pre suf s : List Char) : Option (List Char) :=
  if pre.isPrefixOf s && suf.isSuffixOf (s.drop pre.length) then
    some ((s.drop pre.length).take (s.length - pre.length - suf.length))
  else none

/-- The word the shell passes for `'text'`: `text` itself, provided it holds
no single quote. -/
def singleQuoted (text : List Char) : Option (List Char) :=
  if text.contains '\'' then none else some text

/-- The word the shell passes for `"text"` in the cases where it is `text`
itself: no double quote, backquote or backslash, and no `$` except as the
last character. -/
def doubleQuoted (text : List Char) : Option (List Char) :=
  if text.contains '"' || text.contains (Char.ofNat 96) || text.contains '\\'
      || text.dropLast.contains '$' then none
  else some text

/-- The lines a simulated host prints for `mount` and for
`lsblk --all -n -l --output PKNAME`. -/
structure SimHost where
  mount : List String
  lsblk : List String

/-- The stages `grep PATTERN | awk 'print $n'` on the given lines, with the
trimmed output the executor returns.  The exit status of a pipeline is that
of its last command, so no match is not a failure. -/
def grepAwk (word : Option (List Char)) (n : Nat) (lines : List String) :
    Except ExecError String :=
  match word with
  | none => .error (.otherError "unsupported quoting")
  | some pat =>
    match parseBRE pat with
    | none => .error (.otherError "unsupported regular expression")
    | some re =>
      .ok (String.mk (trimSpace (awkPrint n ((lines.map String.data).filter re.selects))))

/-- Modelled from the spec: the Command Executor's `ExecuteCommandPipeline`
on a simulated host (section 6: it runs the shell pipeline and returns the
trimmed standard output), for the `mount` and `lsblk` pipelines. -/
def simPipeline (h : SimHost) (command : String) : Except ExecError String :=
  match between "mount | grep '".data "' | awk '\x7bprint $3\x7d'".data command.data with
  | some text => grepAwk (singleQuoted text) 3 h.mount
  | none =>
    match between "mount | grep '".data "' | awk '\x7bprint $1\x7d'".data command.data with
    | some text => grepAwk (singleQuoted text) 1 h.mount
    | none =>
      match between "lsblk --all -n -l --output PKNAME | grep \"".data
          "\" | awk '\x7bprint $0\x7d'".data command.data with
      | some text => grepAwk (doubleQuoted text) 0 h.lsblk
      | none => .error (.otherError "unsupported pipeline")

/-- Modelled from the spec: a Command Executor over a simulated host.  Single
commands succeed and leave the host as it is. -/
def simExecutor : Executor SimHost where
  ExecuteCommand := fun _ _ _ h => (none, h)
  ExecuteCommandPipeline := fun _ command h => (simPipeline h command, h)

/-- An operating system on any host: `MkdirAll` changes nothing and
`user.Current` fails. -/
def idleOS {σ : Type} : OS σ where
  MkdirAll := fun _ _ h => h
  userCurrent := fun h => (.error "user: unknown", h)

/-- A world over a simulated host, before any call. -/
def simWorld (h : SimHost) : World SimHost := ⟨h, none, []⟩

/-- A sequence of `ChownForCurrentUser` calls, one per path, in order. -/
def chownAll (os : OS σ) (executor : Executor σ) : List String → World σ → World σ
  | [], w => w
  | path :: rest, w => chownAll os executor rest (ChownForCurrentUser os path executor w)

/-! ## Vocabulary of the statements about the simulated host -/

/-- A character that stands for itself everywhere the facade puts a name:
not white space, not special in a basic regular expression, not a quote, not
a control character. -/
def isPlain (c : Char) : Bool :=
  !(isSpace c || isSpecial c || c == '\'' || c == '"' || c == Char.ofNat 96
    || c.toNat < 32 || c.toNat == 127)

/-- A name made of plain characters only. -/
def isPlainName (s : String) : Bool := s.data.all isPlain

/-- Whether the text begins with `p` (Go's `strings.HasPrefix`). -/
def hasPrefix (s p : List Char) : Bool := p.isPrefixOf s

/-- Whether `p` occurs in the text (Go's `strings.Contains`). -/
def containsSub (p : List Char) : List Char → Bool
  | [] => p.isEmpty
  | c :: s => p.isPrefixOf (c :: s) || containsSub p s

/-- The source column of a mount-table row: its first field. -/
def rowSource (row : String) : String := String.mk (awkField 1 row.data)

/-- A character that a basic regular expression reads as itself wherever it
stands after the first position. -/
def isOrdinary (c : Char) : Bool :=
  !(c == '\\' || c == '[' || c == '.' || c == '*' || c == '$')

/-- The pieces of an expression that spells out a text literally. -/
def litPieces (p : List Char) : List Piece := p.map (fun c => ⟨Atom.lit c, false⟩)

/-! ## Example hosts -/

/-- A mount table with one device mounted twice and one mount point used by
two sources. -/
def exampleHost : SimHost where
  mount := ["/dev/sda1 on / type ext4 (rw,relatime)",
    "/dev/sdb on /mnt/a type ext4 (rw)",
    "/dev/sdb on /mnt/b type ext4 (rw)",
    "/dev/sdc1 on /mnt/data type ext4 (rw)",
    "tmpfs on /mnt/a type tmpfs (rw)"]
  lsblk := ["", "sda", "sda", "", "sdb"]

/-- A mount table with a mount path that contains a space. -/
def spacedHost : SimHost where
  mount := ["/dev/sda on /mnt/my disk type ext4 (rw)"]
  lsblk := []

/-- An executor whose every call gives the same result and changes nothing. -/
def fixedExecutor (commandResult : Option ExecError)
    (pipelineResult : Except ExecError String) : Executor Unit where
  ExecuteCommand := fun _ _ _ h => (commandResult, h)
  ExecuteCommandPipeline := fun _ _ h => (pipelineResult, h)

/-- An operating system whose successive `user.Current` calls give the listed
outcomes in order, and fail once the list is used up. -/
def scriptedOS : OS (List (Except String User)) where
  MkdirAll := fun _ _ h => h
  userCurrent := fun h =>
    match h with
    | [] => (.error "user: unknown", [])
    | r :: rest => (r, rest)

/-- An executor over the scripted operating system whose commands succeed. -/
def scriptedExecutor : Executor (List (Except String User)) where
  ExecuteCommand := fun _ _ _ h => (none, h)
  ExecuteCommandPipeline := fun _ _ h => (.ok "", h)

/-- The user the scripted examples resolve. -/
def exampleUser : User := ⟨"1000", "1000", "rook", "Rook", "/home/rook"⟩

/-! ## Observing the executor

The calls an executor receives are observed in the executor's own state, which
the facade can change only by calling it. -/

/-- The executor `e` on a host that also carries a counter of the calls the
executor has received. -/
def countingExecutor {σ : Type} (e : Executor σ) : Executor (σ × Nat) where
  ExecuteCommand := fun label program args h =>
    ((e.ExecuteCommand label program args h.1).1,
      ((e.ExecuteCommand label program args h.1).2, h.2 + 1))
  ExecuteCommandPipeline := fun label command h =>
    ((e.ExecuteCommandPipeline label command h.1).1,
      ((e.ExecuteCommandPipeline label command h.1).2, h.2 + 1))

/-- The operating system `os` on a host that also carries the executor's call
counter, which it leaves alone. -/
def countingOS {σ : Type} (os : OS σ) : OS (σ × Nat) where
  MkdirAll := fun path perm h => (os.MkdirAll path perm h.1, h.2)
  userCurrent := fun h => ((os.userCurrent h.1).1, ((os.userCurrent h.1).2, h.2))

/-- An executor whose state is the list of calls it has received, each with
its label, program and arguments; every call succeeds. -/
def recordingExecutor : Executor (List Event) where
  ExecuteCommand := fun label program args h =>
    (none, h ++ [Event.executeCommand label program args])
  ExecuteCommandPipeline := fun label command h =>
    (.ok "", h ++ [Event.executeCommandPipeline label command])

/-! ## Theorems -/

/-! ### Error handling of the single-command operations -/

/-- C1: `UnmountDevice` returns a nil error exactly when the executor's
`ExecuteCommand` succeeds or fails with a `CommandError` of exit status 32;
every other failure gives a non-nil error. -/
theorem UnmountDevice_nil_iff (devicePath : String) (executor : Executor σ) (w : World σ) :
    (UnmountDevice devicePath executor w).1 = none ↔
      ((executor.ExecuteCommand ("umount " ++ devicePath) "sudo"
          ["umount", devicePath] w.host).1 = none ∨
       ∃ msg, (executor.ExecuteCommand ("umount " ++ devicePath) "sudo"
          ["umount", devicePath] w.host).1 = some (ExecError.commandError 32 msg)) := by
  unfold UnmountDevice executeCommand
  simp only
  cases h : (executor.ExecuteCommand ("umount " ++ devicePath) "sudo"
      ["umount", devicePath] w.host).1 with
  | none => simp
  | some err =>
    cases err with
    | commandError st msg =>
      by_cases hst : st = 32
      · subst hst; simp
      · simp [hst]
    | otherError msg => simp

/-- C2: `GetDiskUUID` never returns a non-nil error: a failed pipeline gives
`("", nil)` and a pipeline that succeeds with output `s` gives `(s, nil)`. -/
theorem GetDiskUUID_never_errors (deviceName : String) (executor : Executor σ) (w : World σ) :
    (GetDiskUUID deviceName executor w).1.2 = none ∧
    (∀ err, (executor.ExecuteCommandPipeline ("get disk " ++ deviceName ++ " uuid")
        ("sgdisk -p /dev/" ++ deviceName ++
          " | grep 'Disk identifier (GUID)' | awk '\x7bprint $4\x7d'") w.host).1 = .error err →
      (GetDiskUUID deviceName executor w).1 = ("", none)) ∧
    (∀ s, (executor.ExecuteCommandPipeline ("get disk " ++ deviceName ++ " uuid")
        ("sgdisk -p /dev/" ++ deviceName ++
          " | grep 'Disk identifier (GUID)' | awk '\x7bprint $4\x7d'") w.host).1 = .ok s →
      (GetDiskUUID deviceName executor w).1 = (s, none)) := by
  unfold GetDiskUUID executeCommandPipeline
  simp only
  cases h : (executor.ExecuteCommandPipeline ("get disk " ++ deviceName ++ " uuid")
        ("sgdisk -p /dev/" ++ deviceName ++
          " | grep 'Disk identifier (GUID)' | awk '\x7bprint $4\x7d'") w.host).1 with
  | error e => simp
  | ok s => simp

/-- C3: `GetDeviceFilesystem` returns a non-nil error and an empty filesystem
type whenever the pipeline fails, and a nil error with the pipeline's output
whenever it succeeds, empty output included. -/
theorem GetDeviceFilesystem_error_iff (device : String) (executor : Executor σ)
    (w : World σ) :
    (∀ err, (executor.ExecuteCommandPipeline ("get filesystem type for " ++ device)
        ("df --output=source,fstype | grep '^/dev/" ++ device ++
          " ' | awk '\x7bprint $2\x7d'") w.host).1 = .error err →
      (GetDeviceFilesystem device executor w).1.1 = "" ∧
      (GetDeviceFilesystem device executor w).1.2 =
        some (commandFailed ("get filesystem type for " ++ device) err.Error)) ∧
    (∀ s, (executor.ExecuteCommandPipeline ("get filesystem type for " ++ device)
        ("df --output=source,fstype | grep '^/dev/" ++ device ++
          " ' | awk '\x7bprint $2\x7d'") w.host).1 = .ok s →
      (GetDeviceFilesystem device executor w).1 = (s, none)) := by
  unfold GetDeviceFilesystem executeCommandPipeline
  simp only
  cases h : (executor.ExecuteCommandPipeline ("get filesystem type for " ++ device)
        ("df --output=source,fstype | grep '^/dev/" ++ device ++
          " ' | awk '\x7bprint $2\x7d'") w.host).1 with
  | error e => simp
  | ok s => simp

/-- C4 (as amended): `MountDeviceWithOptions` creates the mount directory and
then invokes the executor with program `sudo` and arguments `mount devicePath
mountPath` when `options` is empty, `mount -o options devicePath mountPath`
with `options` unmodified otherwise: its error and the host it leaves are
those of that one executor call.  `MountDevice` issues the plain form, which
holds `-o` only where `devicePath` or `mountPath` is `-o` itself. -/
theorem MountDeviceWithOptions_arguments (os : OS σ) (devicePath mountPath options : String)
    (executor : Executor σ) (w : World σ) :
    ((MountDeviceWithOptions os devicePath mountPath options executor w).1 =
        (executor.ExecuteCommand ("mount " ++ devicePath) "sudo"
          (if options = "" then ["mount", devicePath, mountPath]
           else ["mount", "-o", options, devicePath, mountPath])
          (os.MkdirAll mountPath 0o755 w.host)).1.map
          (fun err => commandFailed ("mount " ++ devicePath) err.Error) ∧
      (MountDeviceWithOptions os devicePath mountPath options executor w).2.host =
        (executor.ExecuteCommand ("mount " ++ devicePath) "sudo"
          (if options = "" then ["mount", devicePath, mountPath]
           else ["mount", "-o", options, devicePath, mountPath])
          (os.MkdirAll mountPath 0o755 w.host)).2 ∧
      (MountDeviceWithOptions os devicePath mountPath options executor w).2.trace =
        w.trace ++ [Event.mkdirAll mountPath 0o755,
          Event.executeCommand ("mount " ++ devicePath) "sudo"
            (if options = "" then ["mount", devicePath, mountPath]
             else ["mount", "-o", options, devicePath, mountPath])]) ∧
    ((MountDevice os devicePath mountPath executor w).1 =
        (executor.ExecuteCommand ("mount " ++ devicePath) "sudo"
          ["mount", devicePath, mountPath] (os.MkdirAll mountPath 0o755 w.host)).1.map
          (fun err => commandFailed ("mount " ++ devicePath) err.Error) ∧
      (MountDevice os devicePath mountPath executor w).2.host =
        (executor.ExecuteCommand ("mount " ++ devicePath) "sudo"
          ["mount", devicePath, mountPath] (os.MkdirAll mountPath 0o755 w.host)).2 ∧
      (MountDevice os devicePath mountPath executor w).2.trace =
        w.trace ++ [Event.mkdirAll mountPath 0o755,
          Event.executeCommand ("mount " ++ devicePath) "sudo"
            ["mount", devicePath, mountPath]]) ∧
    ("-o" ∈ ["mount", devicePath, mountPath] ↔ devicePath = "-o" ∨ mountPath = "-o") := by
  refine ⟨?_, ?_, ?_⟩
  · unfold MountDeviceWithOptions executeCommand mkdirAll
    by_cases ho : options = ""
    · subst ho
      simp only [ne_eq, not_true_eq_false, if_false, if_true]
      split <;> simp_all
    · simp only [ne_eq, ho, not_false_eq_true, if_true, if_false]
      split <;> simp_all
  · unfold MountDevice MountDeviceWithOptions executeCommand mkdirAll
    simp only [ne_eq, not_true_eq_false, if_false]
    split <;> simp_all
  · have h : ("-o" : String) ≠ "mount" := by decide
    simp [h, eq_comm]

/-! ### The cached current user -/

theorem lookups_append (t u : List Event) : lookups (t ++ u) = lookups t + lookups u := by
  simp [lookups, List.countP_append]

theorem chownIfResolved_currentUser (path : String) (executor : Executor σ) (w : World σ) :
    (chownIfResolved path executor w).currentUser = w.currentUser := by
  obtain ⟨hst, cu, tr⟩ := w
  unfold chownIfResolved executeCommand logPrintf
  cases cu with
  | none => rfl
  | some u => simp only; split <;> rfl

theorem chownIfResolved_lookups (path : String) (executor : Executor σ) (w : World σ) :
    lookups (chownIfResolved path executor w).trace = lookups w.trace := by
  obtain ⟨hst, cu, tr⟩ := w
  unfold chownIfResolved executeCommand logPrintf
  cases cu with
  | none => rfl
  | some u =>
    simp only
    split <;> simp [lookups_append, lookups, Event.isLookup]

theorem ChownForCurrentUser_cached (os : OS σ) (path : String) (executor : Executor σ)
    (w : World σ) (u : User) (h : w.currentUser = some u) :
    (ChownForCurrentUser os path executor w).currentUser = some u ∧
    lookups (ChownForCurrentUser os path executor w).trace = lookups w.trace := by
  unfold ChownForCurrentUser
  rw [h]
  simp only [chownIfResolved_currentUser, chownIfResolved_lookups, h, and_self]

theorem ChownForCurrentUser_uncached (os : OS σ) (path : String) (executor : Executor σ)
    (w : World σ) (h : w.currentUser = none) :
    lookups (ChownForCurrentUser os path executor w).trace = lookups w.trace + 1 ∧
    (ChownForCurrentUser os path executor w).currentUser = (os.userCurrent w.host).1.toOption := by
  obtain ⟨hst, cu, tr⟩ := w
  simp only at h
  subst h
  unfold ChownForCurrentUser userCurrent
  simp only
  split
  next e he =>
    simp [he, logPrintf, lookups_append, lookups, Event.isLookup, Except.toOption]
  next u hu =>
    rw [chownIfResolved_currentUser, chownIfResolved_lookups]
    simp [hu, lookups_append, lookups, Event.isLookup, Except.toOption]

theorem chownAll_cached (os : OS σ) (executor : Executor σ) (paths : List String)
    (w : World σ) (u : User) (h : w.currentUser = some u) :
    (chownAll os executor paths w).currentUser = some u ∧
    lookups (chownAll os executor paths w).trace = lookups w.trace := by
  induction paths generalizing w with
  | nil => exact ⟨h, rfl⟩
  | cons p ps ih =>
    have h1 := ChownForCurrentUser_cached os p executor w u h
    have h2 := ih (ChownForCurrentUser os p executor w) h1.1
    exact ⟨h2.1, h2.2.trans h1.2⟩

theorem chownAll_unresolved (os : OS σ) (executor : Executor σ) (paths : List String)
    (w : World σ) (h : w.currentUser = none)
    (hend : (chownAll os executor paths w).currentUser = none) :
    lookups (chownAll os executor paths w).trace = lookups w.trace + paths.length := by
  induction paths generalizing w with
  | nil => rfl
  | cons p ps ih =>
    have h1 := ChownForCurrentUser_uncached os p executor w h
    cases hc : (ChownForCurrentUser os p executor w).currentUser with
    | none =>
      have h2 := ih (ChownForCurrentUser os p executor w) hc hend
      simp only [chownAll, List.length_cons] at h2 ⊢
      omega
    | some u =>
      have h2 := (chownAll_cached os executor ps _ u hc).1
      simp only [chownAll] at hend
      rw [hend] at h2
      cases h2

/-- C9: with the cached current user as an optional state value and
`user.Current` as an oracle: once the cache holds a user, no sequence of
`ChownForCurrentUser` calls changes it or performs a lookup; every call made
with an empty cache performs exactly one lookup, which leaves the cache empty
when it fails and fills it when it succeeds; so as long as no lookup has
succeeded, every call of a sequence has performed a lookup. -/
theorem currentUser_cache (os : OS σ) (executor : Executor σ) (w : World σ) :
    (∀ u paths, w.currentUser = some u →
      (chownAll os executor paths w).currentUser = some u ∧
      lookups (chownAll os executor paths w).trace = lookups w.trace) ∧
    (∀ path, w.currentUser = none →
      lookups (ChownForCurrentUser os path executor w).trace = lookups w.trace + 1 ∧
      (∀ err, (os.userCurrent w.host).1 = .error err →
        (ChownForCurrentUser os path executor w).currentUser = none) ∧
      (∀ u, (os.userCurrent w.host).1 = .ok u →
        (ChownForCurrentUser os path executor w).currentUser = some u)) ∧
    (∀ paths, w.currentUser = none →
      (chownAll os executor paths w).currentUser = none →
      lookups (chownAll os executor paths w).trace = lookups w.trace + paths.length) := by
  refine ⟨fun u paths h => chownAll_cached os executor paths w u h, fun path h => ?_,
    fun paths h hend => chownAll_unresolved os executor paths w h hend⟩
  have h1 := ChownForCurrentUser_uncached os path executor w h
  refine ⟨h1.1, fun err he => ?_, fun u hu => ?_⟩
  · rw [h1.2, he]; rfl
  · rw [h1.2, hu]; rfl

/-! ### Executor invocations per call -/

theorem ChownForCurrentUser_count (os : OS σ) (path : String) (executor : Executor σ)
    (w : World (σ × Nat)) :
    (ChownForCurrentUser (countingOS os) path (countingExecutor executor) w).host.2 =
      w.host.2 +
        (match w.currentUser with
         | some _ => 1
         | none =>
           match (os.userCurrent w.host.1).1 with
           | .ok _ => 1
           | .error _ => 0) := by
  obtain ⟨⟨s, n⟩, cu, tr⟩ := w
  cases cu with
  | some u =>
    simp [ChownForCurrentUser, chownIfResolved, executeCommand, countingExecutor, logPrintf]
    split <;> rfl
  | none =>
    simp only [ChownForCurrentUser, userCurrent, countingOS]
    generalize os.userCurrent s = r
    obtain ⟨x, s1⟩ := r
    cases x with
    | error e => simp [logPrintf]
    | ok u =>
      simp [chownIfResolved, executeCommand, countingExecutor, logPrintf]
      split <;> rfl

/-- C10 (as amended): with the calls counted in the executor's own state,
every facade operation other than `ChownForCurrentUser` makes exactly one
executor invocation per call, whatever the input and the outcome;
`ChownForCurrentUser` makes exactly one when the current user is cached or
its lookup succeeds, and none when the lookup fails. -/
theorem one_invocation_per_call (os : OS σ) (executor : Executor σ) (w : World (σ × Nat))
    (a b c : String) :
    (GetDeviceFilesystem a (countingExecutor executor) w).2.host.2 = w.host.2 + 1 ∧
    (FormatDevice a (countingExecutor executor) w).2.host.2 = w.host.2 + 1 ∧
    (GetDiskUUID a (countingExecutor executor) w).2.host.2 = w.host.2 + 1 ∧
    (GetDeviceMountPoint a (countingExecutor executor) w).2.host.2 = w.host.2 + 1 ∧
    (GetDeviceFromMountPoint a (countingExecutor executor) w).2.host.2 = w.host.2 + 1 ∧
    (MountDevice (countingOS os) a b (countingExecutor executor) w).2.host.2 =
      w.host.2 + 1 ∧
    (MountDeviceWithOptions (countingOS os) a b c (countingExecutor executor) w).2.host.2 =
      w.host.2 + 1 ∧
    (UnmountDevice a (countingExecutor executor) w).2.host.2 = w.host.2 + 1 ∧
    (DoesDeviceHaveChildren a (countingExecutor executor) w).2.host.2 = w.host.2 + 1 ∧
    (ChownForCurrentUser (countingOS os) a (countingExecutor executor) w).host.2 =
      w.host.2 +
        (match w.currentUser with
         | some _ => 1
         | none =>
           match (os.userCurrent w.host.1).1 with
           | .ok _ => 1
           | .error _ => 0) := by
  refine ⟨?_, ?_, ?_, ?_, ?_, ?_, ?_, ?_, ?_, ChownForCurrentUser_count os a executor w⟩
  · unfold GetDeviceFilesystem executeCommandPipeline
    simp only
    split <;> simp [countingExecutor]
  · unfold FormatDevice executeCommand
    simp only
    split <;> simp [countingExecutor]
  · unfold GetDiskUUID executeCommandPipeline
    simp only
    split <;> simp [countingExecutor, logPrintf]
  · unfold GetDeviceMountPoint executeCommandPipeline
    simp only
    split <;> simp [countingExecutor]
  · unfold GetDeviceFromMountPoint executeCommandPipeline
    simp only
    split <;> simp [countingExecutor]
  · unfold MountDevice MountDeviceWithOptions executeCommand mkdirAll
    simp only
    split <;> simp [countingExecutor, countingOS]
  · unfold MountDeviceWithOptions executeCommand mkdirAll
    simp only
    split <;> simp [countingExecutor, countingOS]
  · unfold UnmountDevice executeCommand
    simp only
    split
    · split
      · split <;> simp [countingExecutor, logPrintf]
      · simp [countingExecutor]
    · simp [countingExecutor]
  · unfold DoesDeviceHaveChildren executeCommandPipeline
    simp only
    split <;> simp [countingExecutor]

/-- C10 (counterexample): when `user.Current` fails, `ChownForCurrentUser`
returns without invoking the executor: the executor's call counter stays 0. -/
theorem ChownForCurrentUser_no_invocation :
    (ChownForCurrentUser (countingOS idleOS) "/data"
      (countingExecutor (fixedExecutor none (.ok ""))) ⟨((), 0), none, []⟩).host.2 = 0 ∧
    ¬ (ChownForCurrentUser (countingOS idleOS) "/data"
      (countingExecutor (fixedExecutor none (.ok ""))) ⟨((), 0), none, []⟩).host.2 = 0 + 1 := by
  decide

/-! ### The simulated host: characters, patterns, fields -/

theorem isPlain_facts {c : Char} (h : isPlain c = true) :
    isSpace c = false ∧ isSpecial c = false ∧ c ≠ '\'' ∧ c ≠ '"' ∧ c ≠ Char.ofNat 96 := by
  simp only [isPlain, Bool.not_eq_true', Bool.or_eq_false_iff, beq_eq_false_iff_ne, ne_eq] at h
  obtain ⟨⟨⟨⟨⟨⟨h1, h2⟩, h3⟩, h4⟩, h5⟩, _⟩, _⟩ := h
  exact ⟨h1, h2, h3, h4, h5⟩

theorem isBlank_of_isSpace_false {c : Char} (h : isSpace c = false) : isBlank c = false := by
  unfold isSpace at h
  unfold isBlank
  simp only [Bool.or_eq_false_iff, Bool.and_eq_false_iff, beq_eq_false_iff_ne, ne_eq,
    decide_eq_false_iff_not, not_le] at h ⊢
  omega

theorem between_append (pre mid suf : List Char) :
    between pre suf (pre ++ (mid ++ suf)) = some mid := by
  unfold between
  have h1 : pre.isPrefixOf (pre ++ (mid ++ suf)) = true := by simp
  have h2 : List.drop pre.length (pre ++ (mid ++ suf)) = mid ++ suf := List.drop_left _ _
  have h3 : suf.isSuffixOf (mid ++ suf) = true := by simp
  have h4 : (pre ++ (mid ++ suf)).length - pre.length - suf.length = mid.length := by
    simp only [List.length_append]; omega
  rw [h2, h1, h3, h4, List.take_left]
  simp

theorem between_other_end (pre mid suf suf2 : List Char) (hl : suf2.length = suf.length)
    (hne : suf2 ≠ suf) : between pre suf2 (pre ++ (mid ++ suf)) = none := by
  unfold between
  have h2 : List.drop pre.length (pre ++ (mid ++ suf)) = mid ++ suf := List.drop_left _ _
  have h3 : suf2.isSuffixOf (mid ++ suf) = false := by
    rw [Bool.eq_false_iff]
    intro h
    rw [List.isSuffixOf_iff_suffix] at h
    obtain ⟨t, ht⟩ := h
    exact hne (List.append_inj' ht hl).2
  rw [h2, h3]
  simp


theorem isOrdinary_of_isPlain {c : Char} (h : isPlain c = true) : isOrdinary c = true := by
  have h2 := (isPlain_facts h).2.1
  simp only [isSpecial, Bool.or_eq_false_iff, beq_eq_false_iff_ne, ne_eq] at h2
  simp only [isOrdinary, Bool.not_eq_true', Bool.or_eq_false_iff, beq_eq_false_iff_ne, ne_eq]
  tauto

theorem parsePieces_ordinary (p : List Char) (h : p.all isOrdinary = true) (acc : List Piece)
    (rest : List Char) :
    parsePieces acc (p ++ rest) = parsePieces ((litPieces p).reverse ++ acc) rest := by
  induction p generalizing acc with
  | nil => rfl
  | cons c p ih =>
    simp only [List.all_cons, Bool.and_eq_true] at h
    have hc := h.1
    simp only [isOrdinary, Bool.not_eq_true', Bool.or_eq_false_iff, beq_eq_false_iff_ne,
      ne_eq] at hc
    obtain ⟨⟨⟨⟨c1, c2⟩, c3⟩, c4⟩, c5⟩ := hc
    have step : parsePieces acc (c :: (p ++ rest)) =
        parsePieces (⟨Atom.lit c, false⟩ :: acc) (p ++ rest) := by
      rw [parsePieces.eq_def]
      simp [c1, c2, c3, c4, c5]
    rw [List.cons_append, step, ih h.2]
    simp [litPieces]

theorem parseBRE_anchored (p : List Char) (h : p.all isOrdinary = true) :
    parseBRE ('^' :: p) = some ⟨true, litPieces p, false⟩ := by
  have h1 := parsePieces_ordinary p h [] []
  simp only [List.append_nil] at h1
  simp [parseBRE, h1, parsePieces.eq_def]

theorem parseBRE_anchored_both (p : List Char) (h : p.all isOrdinary = true) :
    parseBRE ('^' :: (p ++ ['$'])) = some ⟨true, litPieces p, true⟩ := by
  have h1 := parsePieces_ordinary p h [] ['$']
  simp only [List.append_nil] at h1
  simp [parseBRE, h1, parsePieces.eq_def]

theorem parseBRE_plain (c : Char) (p : List Char) (hc : c ≠ '^')
    (h : (c :: p).all isOrdinary = true) :
    parseBRE (c :: p) = some ⟨false, litPieces (c :: p), false⟩ := by
  have h1 := parsePieces_ordinary (c :: p) h [] []
  simp only [List.append_nil] at h1
  simp [parseBRE, h1, parsePieces.eq_def, hc]

theorem matchHere_lit (p s : List Char) :
    matchHere false (litPieces p) s = p.isPrefixOf s := by
  induction p generalizing s with
  | nil => simp [litPieces, matchHere]
  | cons c p ih =>
    cases s with
    | nil => simp [litPieces, matchHere]
    | cons d s =>
      have := ih s
      simp only [litPieces, List.map_cons] at this ⊢
      simp only [matchHere, Atom.accepts, this, List.isPrefixOf, Bool.false_eq_true, if_false]
      rw [Bool.beq_comm]

theorem matchHere_lit_end (p s : List Char) :
    matchHere true (litPieces p) s = decide (s = p) := by
  induction p generalizing s with
  | nil => cases s <;> simp [litPieces, matchHere]
  | cons c p ih =>
    cases s with
    | nil => simp [litPieces, matchHere]
    | cons d s =>
      have := ih s
      simp only [litPieces, List.map_cons] at this ⊢
      simp only [matchHere, Atom.accepts, this, Bool.false_eq_true, if_false, List.cons.injEq,
        Bool.decide_and]
      rfl

theorem matchFrom_lit (p s : List Char) :
    matchFrom false (litPieces p) s = containsSub p s := by
  induction s with
  | nil => cases p <;> simp [matchFrom, containsSub, matchHere_lit, List.isPrefixOf]
  | cons d s ih => simp [matchFrom, containsSub, matchHere_lit, ih]


theorem splitFields_word (w : List Char) (hw : ∀ c ∈ w, isBlank c = false) (cur rest : List Char)
    (hne : cur ++ w ≠ []) :
    splitFields cur (w ++ ' ' :: rest) = (cur ++ w) :: splitFields [] rest := by
  induction w generalizing cur with
  | nil =>
    simp only [List.append_nil] at hne
    have hb : isBlank ' ' = true := by decide
    cases cur with
    | nil => exact absurd rfl hne
    | cons a cur => simp [splitFields, hb]
  | cons c w ih =>
    have hc : isBlank c = false := hw c (List.mem_cons_self _ _)
    have hw2 : ∀ d ∈ w, isBlank d = false := fun d hd => hw d (List.mem_cons_of_mem _ hd)
    have h1 := ih hw2 (cur ++ [c]) (by simp)
    have h2 : splitFields cur (c :: (w ++ ' ' :: rest)) =
        splitFields (cur ++ [c]) (w ++ ' ' :: rest) := by
      rw [splitFields]; simp [hc]
    rw [List.cons_append, h2, h1]
    simp

theorem trimSpace_line (w : List Char) (hw : ∀ c ∈ w, isSpace c = false) :
    trimSpace (w ++ ['\n']) = w := by
  unfold trimSpace
  have hn : isSpace '\n' = true := by decide
  cases w with
  | nil => simp [List.dropWhile, hn]
  | cons c w =>
    have hc : isSpace c = false := hw c (List.mem_cons_self _ _)
    have h1 : ((c :: w) ++ ['\n']).dropWhile isSpace = (c :: w) ++ ['\n'] := by
      simp [List.dropWhile, hc]
    rw [h1]
    have h2 : ((c :: w) ++ ['\n']).reverse = '\n' :: (c :: w).reverse := by simp
    rw [h2, List.dropWhile_cons, if_pos hn]
    have h3 : ((c :: w).reverse).dropWhile isSpace = (c :: w).reverse := by
      cases hr : (c :: w).reverse with
      | nil => rfl
      | cons d r =>
        have hd : d ∈ c :: w := by
          have : d ∈ (c :: w).reverse := by rw [hr]; exact List.mem_cons_self _ _
          exact List.mem_reverse.mp this
        simp [List.dropWhile, hw d hd]
    rw [h3, List.reverse_reverse]

theorem trimSpace_nil : trimSpace [] = [] := rfl

theorem mem_dropWhile_of_false {p : Char → Bool} {c : Char} {s : List Char} (hc : c ∈ s)
    (hp : p c = false) : c ∈ s.dropWhile p := by
  induction s with
  | nil => cases hc
  | cons d s ih =>
    rw [List.dropWhile_cons]
    split
    next hd =>
      rcases List.mem_cons.mp hc with rfl | h
      · rw [hp] at hd; cases hd
      · exact ih h
    next => exact hc

theorem trimSpace_ne_nil {s : List Char} {c : Char} (hc : c ∈ s) (hs : isSpace c = false) :
    trimSpace s ≠ [] := by
  have h1 : c ∈ s.dropWhile isSpace := mem_dropWhile_of_false hc hs
  have h2 : c ∈ ((s.dropWhile isSpace).reverse).dropWhile isSpace :=
    mem_dropWhile_of_false (List.mem_reverse.mpr h1) hs
  have h3 : c ∈ trimSpace s := List.mem_reverse.mpr h2
  intro h
  rw [h] at h3
  cases h3

/-! ### The simulated host: pipelines -/

theorem singleQuoted_ok (t : List Char) (h : t.all (fun c => c != '\'') = true) :
    singleQuoted t = some t := by
  have hm : '\'' ∉ t := by
    intro hm
    have := List.all_eq_true.mp h _ hm
    simp at this
  simp [singleQuoted, hm]

theorem simPipeline_mount3 (h : SimHost) (command : String) (pat : List Char)
    (hc : command.data = "mount | grep '".data ++ (pat ++ "' | awk '\x7bprint $3\x7d'".data)) :
    simPipeline h command = grepAwk (singleQuoted pat) 3 h.mount := by
  unfold simPipeline
  rw [hc, between_append]

theorem simPipeline_mount1 (h : SimHost) (command : String) (pat : List Char)
    (hc : command.data = "mount | grep '".data ++ (pat ++ "' | awk '\x7bprint $1\x7d'".data)) :
    simPipeline h command = grepAwk (singleQuoted pat) 1 h.mount := by
  unfold simPipeline
  rw [hc, between_append, between_other_end _ _ _ _ (by rfl) (by decide)]

theorem between_other_start (pre suf s : List Char) (h : pre.isPrefixOf s = false) :
    between pre suf s = none := by
  simp [between, h]

theorem simPipeline_lsblk (h : SimHost) (command : String) (pat : List Char)
    (hc : command.data = "lsblk --all -n -l --output PKNAME | grep \"".data ++
      (pat ++ "\" | awk '\x7bprint $0\x7d'".data)) :
    simPipeline h command = grepAwk (doubleQuoted pat) 0 h.lsblk := by
  unfold simPipeline
  rw [hc, between_append, between_other_start _ _ _ (by rfl), between_other_start _ _ _ (by rfl)]

theorem doubleQuoted_ok (t : List Char)
    (h : t.all (fun c => c != '"' && c != Char.ofNat 96 && c != '\\' && c != '$') = true) :
    doubleQuoted ('^' :: (t ++ ['$'])) = some ('^' :: (t ++ ['$'])) := by
  have hall := List.all_eq_true.mp h
  simp only [Bool.and_eq_true, bne_iff_ne, ne_eq] at hall
  have h1 : '"' ∉ t := fun hm => (hall _ hm).1.1.1 rfl
  have h2 : Char.ofNat 96 ∉ t := fun hm => (hall _ hm).1.1.2 rfl
  have h3 : '\\' ∉ t := fun hm => (hall _ hm).1.2 rfl
  have h4 : '$' ∉ t := fun hm => (hall _ hm).2 rfl
  have h5 : ('^' :: (t ++ ['$'])).dropLast = '^' :: t := by
    rw [← List.cons_append, List.dropLast_concat]
  unfold doubleQuoted
  rw [h5]
  simp [h1, h2, h3, h4]


theorem isPlainName_mem {s : String} (h : isPlainName s = true) :
    ∀ c ∈ s.data, isPlain c = true := by
  simpa [isPlainName, List.all_eq_true] using h

theorem isPlainName_ordinary {s : String} (h : isPlainName s = true) :
    s.data.all isOrdinary = true := by
  rw [List.all_eq_true]
  exact fun c hc => isOrdinary_of_isPlain (isPlainName_mem h c hc)

theorem isPlainName_unquoted {s : String} (h : isPlainName s = true) :
    s.data.all (fun c => c != '\'') = true := by
  rw [List.all_eq_true]
  intro c hc
  simpa using (isPlain_facts (isPlainName_mem h c hc)).2.2.1

theorem GetDeviceMountPoint_sim (X : String) (hX : isPlainName X = true) (w : World SimHost) :
    (GetDeviceMountPoint X simExecutor w).1 =
      (String.mk (trimSpace (awkPrint 3 ((w.host.mount.map String.data).filter
        (fun r => hasPrefix r ("/dev/" ++ X ++ " on").data)))), none) := by
  have hcmd : ("mount | grep '^/dev/" ++ X ++ " on' | awk '\x7bprint $3\x7d'").data =
      "mount | grep '".data ++ (('^' :: ("/dev/" ++ X ++ " on").data) ++
        "' | awk '\x7bprint $3\x7d'".data) := by simp
  have hord : (("/dev/" ++ X ++ " on").data).all isOrdinary = true := by
    have := isPlainName_ordinary hX
    simp only [String.data_append, List.all_append, this, Bool.and_eq_true]
    exact ⟨⟨by decide, trivial⟩, by decide⟩
  have hq : singleQuoted ('^' :: ("/dev/" ++ X ++ " on").data) =
      some ('^' :: ("/dev/" ++ X ++ " on").data) := by
    apply singleQuoted_ok
    have := isPlainName_unquoted hX
    simp only [String.data_append, List.all_cons, List.all_append, this, Bool.and_eq_true]
    exact ⟨by decide, ⟨by decide, trivial⟩, by decide⟩
  have hp := simPipeline_mount3 w.host _ _ hcmd
  unfold GetDeviceMountPoint executeCommandPipeline
  simp only [simExecutor, hp, hq, grepAwk, parseBRE_anchored _ hord]
  congr
  funext r
  simp [BRE.selects, matchHere_lit, hasPrefix]

theorem GetDeviceFromMountPoint_sim (M : String) (hM : isPlainName M = true)
    (w : World SimHost) :
    (GetDeviceFromMountPoint M simExecutor w).1 =
      (String.mk (trimSpace (awkPrint 1 ((w.host.mount.map String.data).filter
        (fun r => containsSub ("on " ++ M ++ " ").data r)))), none) := by
  have hcmd : ("mount | grep 'on " ++ M ++ " ' | awk '\x7bprint $1\x7d'").data =
      "mount | grep '".data ++ (("on " ++ M ++ " ").data ++
        "' | awk '\x7bprint $1\x7d'".data) := by simp
  have hhead : ("on " ++ M ++ " ").data = 'o' :: ("n " ++ M ++ " ").data := by simp
  have hord : (("on " ++ M ++ " ").data).all isOrdinary = true := by
    have := isPlainName_ordinary hM
    simp only [String.data_append, List.all_append, this, Bool.and_eq_true]
    exact ⟨⟨by decide, trivial⟩, by decide⟩
  have hq : singleQuoted ("on " ++ M ++ " ").data = some ("on " ++ M ++ " ").data := by
    apply singleQuoted_ok
    have := isPlainName_unquoted hM
    simp only [String.data_append, List.all_append, this, Bool.and_eq_true]
    exact ⟨⟨by decide, trivial⟩, by decide⟩
  have hparse : parseBRE ("on " ++ M ++ " ").data =
      some ⟨false, litPieces ("on " ++ M ++ " ").data, false⟩ := by
    rw [hhead] at hord ⊢
    exact parseBRE_plain _ _ (by decide) hord
  have hp := simPipeline_mount1 w.host _ _ hcmd
  unfold GetDeviceFromMountPoint executeCommandPipeline
  simp only [simExecutor, hp, hq, grepAwk, hparse]
  congr
  funext r
  simp [BRE.selects, matchFrom_lit]

theorem DoesDeviceHaveChildren_sim (D : String) (hD : isPlainName D = true)
    (w : World SimHost) :
    (DoesDeviceHaveChildren D simExecutor w).1 =
      (String.mk (trimSpace (awkPrint 0 ((w.host.lsblk.map String.data).filter
        (fun r => decide (r = D.data))))) != "", none) := by
  have hcmd : ("lsblk --all -n -l --output PKNAME | grep \"^" ++ D ++
        "$\" | awk '\x7bprint $0\x7d'").data =
      "lsblk --all -n -l --output PKNAME | grep \"".data ++ (('^' :: (D.data ++ ['$'])) ++
        "\" | awk '\x7bprint $0\x7d'".data) := by simp
  have hord := isPlainName_ordinary hD
  have hq : doubleQuoted ('^' :: (D.data ++ ['$'])) = some ('^' :: (D.data ++ ['$'])) := by
    apply doubleQuoted_ok
    rw [List.all_eq_true]
    intro c hc
    have hf := isPlain_facts (isPlainName_mem hD c hc)
    have h2 := hf.2.1
    simp only [isSpecial, Bool.or_eq_false_iff, beq_eq_false_iff_ne, ne_eq] at h2
    simp only [Bool.and_eq_true, bne_iff_ne, ne_eq]
    exact ⟨⟨⟨hf.2.2.2.1, hf.2.2.2.2⟩, h2.2⟩, h2.1.2⟩
  have hp := simPipeline_lsblk w.host _ _ hcmd
  unfold DoesDeviceHaveChildren executeCommandPipeline
  simp only [simExecutor, hp, hq, grepAwk, parseBRE_anchored_both _ hord]
  congr
  funext r
  simp [BRE.selects, matchHere_lit_end]


theorem isPlainName_noBlank {s : String} (h : isPlainName s = true) :
    ∀ c ∈ s.data, isBlank c = false :=
  fun c hc => isBlank_of_isSpace_false (isPlain_facts (isPlainName_mem h c hc)).1

theorem isPlainName_noSpace {s : String} (h : isPlainName s = true) :
    ∀ c ∈ s.data, isSpace c = false :=
  fun c hc => (isPlain_facts (isPlainName_mem h c hc)).1

theorem isPlainName_append {s t : String} (hs : isPlainName s = true)
    (ht : isPlainName t = true) : isPlainName (s ++ t) = true := by
  simp only [isPlainName, String.data_append, List.all_append, Bool.and_eq_true] at *
  exact ⟨hs, ht⟩

/-- The first field of a line that begins with a blank-free name followed by
a space is that name. -/
theorem awkField_one (name rest : List Char) (hn : ∀ c ∈ name, isBlank c = false)
    (hne : name ≠ []) : awkField 1 (name ++ ' ' :: rest) = name := by
  have := splitFields_word name hn [] rest (by simpa using hne)
  simp [awkField, this]

theorem awkField_three (a b c rest : List Char) (ha : ∀ x ∈ a, isBlank x = false)
    (hb : ∀ x ∈ b, isBlank x = false) (hc : ∀ x ∈ c, isBlank x = false)
    (hane : a ≠ []) (hbne : b ≠ []) (hcne : c ≠ []) :
    awkField 3 (a ++ ' ' :: (b ++ ' ' :: (c ++ ' ' :: rest))) = c := by
  have h1 := splitFields_word a ha [] (b ++ ' ' :: (c ++ ' ' :: rest)) (by simpa using hane)
  have h2 := splitFields_word b hb [] (c ++ ' ' :: rest) (by simpa using hbne)
  have h3 := splitFields_word c hc [] rest (by simpa using hcne)
  simp [awkField, h1, h2, h3]

theorem containsSub_append_left (p a b : List Char) : containsSub p (a ++ (p ++ b)) = true := by
  induction a with
  | nil =>
    cases h : p ++ b with
    | nil =>
      have : p = [] := (List.append_eq_nil.mp h).1
      simp [containsSub, this]
    | cons c s =>
      have hp : p.isPrefixOf (p ++ b) = true := by simp
      rw [h] at hp
      simp [containsSub, hp]
  | cons c a ih => simp [containsSub, ih]

theorem hasPrefix_append (p b : List Char) : hasPrefix (p ++ b) p = true := by
  simp [hasPrefix]

theorem trimSpace_one (x : List Char) (hx : ∀ c ∈ x, isSpace c = false) :
    trimSpace (awkPrint 0 [x]) = x := by
  have : awkPrint 0 [x] = x ++ ['\n'] := by simp [awkPrint, unlines, awkField]
  rw [this, trimSpace_line x hx]

theorem filter_single {α : Type} (p : α → Bool) (pre post : List α) (x : α)
    (hpre : ∀ y ∈ pre, p y = false) (hpost : ∀ y ∈ post, p y = false) (hx : p x = true) :
    (pre ++ [x] ++ post).filter p = [x] := by
  have h1 : pre.filter p = [] := by
    rw [List.filter_eq_nil_iff]; intro y hy; simp [hpre y hy]
  have h2 : post.filter p = [] := by
    rw [List.filter_eq_nil_iff]; intro y hy; simp [hpost y hy]
  simp [List.filter_append, h1, h2, hx]


/-! ### Lookups on the simulated host -/

theorem rowSource_of_hasPrefix (X r : String) (hX : isPlainName X = true)
    (hp : hasPrefix r.data ("/dev/" ++ X ++ " on").data = true) :
    rowSource r = "/dev/" ++ X := by
  unfold hasPrefix at hp
  rw [List.isPrefixOf_iff_prefix] at hp
  obtain ⟨t, ht⟩ := hp
  have hr : r.data = ("/dev/" ++ X).data ++ ' ' :: ('o' :: 'n' :: t) := by
    rw [← ht]; simp
  have hb : ∀ c ∈ ("/dev/" ++ X).data, isBlank c = false := by
    intro c hc
    simp only [String.data_append, List.mem_append] at hc
    rcases hc with hc | hc
    · have : ("/dev/".data).all (fun c => !isBlank c) = true := by decide
      simpa using List.all_eq_true.mp this c hc
    · exact isPlainName_noBlank hX c hc
  have hne : ("/dev/" ++ X).data ≠ [] := by simp
  unfold rowSource
  rw [hr, awkField_one _ _ hb hne]

/-- For a device name `X` of plain characters and a simulated mount table no
row of which has source `/dev/X`, the pipeline built by `GetDeviceMountPoint`
returns `("", nil)`. -/
theorem GetDeviceMountPoint_plain_unmounted (X : String) (hX : isPlainName X = true)
    (w : World SimHost) (hno : ∀ r ∈ w.host.mount, rowSource r ≠ "/dev/" ++ X) :
    (GetDeviceMountPoint X simExecutor w).1 = ("", none) := by
  rw [GetDeviceMountPoint_sim X hX w]
  have hnil : (w.host.mount.map String.data).filter
      (fun r => hasPrefix r ("/dev/" ++ X ++ " on").data) = [] := by
    rw [List.filter_eq_nil_iff]
    intro l hl hp
    obtain ⟨r, hr, rfl⟩ := List.mem_map.mp hl
    exact hno r hr (rowSource_of_hasPrefix X r hX hp)
  rw [hnil]
  rfl



theorem literal_noBlank_dev : ∀ c ∈ "/dev/".data, isBlank c = false := by decide
theorem literal_noBlank_mnt : ∀ c ∈ "/mnt/".data, isBlank c = false := by decide
theorem literal_noSpace_dev : ∀ c ∈ "/dev/".data, isSpace c = false := by decide
theorem literal_noSpace_mnt : ∀ c ∈ "/mnt/".data, isSpace c = false := by decide

theorem mountRow_fields (X Y rest : String) (hX : isPlainName X = true)
    (hY : isPlainName Y = true) :
    awkField 1 ("/dev/" ++ X ++ " on /mnt/" ++ Y ++ " type ext4" ++ rest).data =
      ("/dev/" ++ X).data ∧
    awkField 3 ("/dev/" ++ X ++ " on /mnt/" ++ Y ++ " type ext4" ++ rest).data =
      ("/mnt/" ++ Y).data := by
  have hr : ("/dev/" ++ X ++ " on /mnt/" ++ Y ++ " type ext4" ++ rest).data =
      ("/dev/" ++ X).data ++ ' ' :: ("on".data ++ ' ' :: (("/mnt/" ++ Y).data ++
        ' ' :: ("type ext4" ++ rest).data)) := by simp
  have ha : ∀ c ∈ ("/dev/" ++ X).data, isBlank c = false := by
    intro c hc
    simp only [String.data_append, List.mem_append] at hc
    rcases hc with hc | hc
    · exact literal_noBlank_dev c hc
    · exact isPlainName_noBlank hX c hc
  have hc : ∀ c ∈ ("/mnt/" ++ Y).data, isBlank c = false := by
    intro c hc
    simp only [String.data_append, List.mem_append] at hc
    rcases hc with hc | hc
    · exact literal_noBlank_mnt c hc
    · exact isPlainName_noBlank hY c hc
  have hb : ∀ c ∈ "on".data, isBlank c = false := by decide
  rw [hr]
  exact ⟨awkField_one _ _ ha (by simp),
    awkField_three _ _ _ _ ha hb hc (by simp) (by simp) (by simp)⟩

/-- C5 (as amended): for `X` and `Y` of plain characters and a simulated mount
table holding the row `/dev/X on /mnt/Y type ext4 ...`, no other row of which
has source `/dev/X` or contains the text `on /mnt/Y `, the pipelines the
facade builds give `GetDeviceMountPoint(X) = ("/mnt/Y", nil)` and
`GetDeviceFromMountPoint("/mnt/Y") = ("/dev/X", nil)`. -/
theorem mount_lookups_inverse (X Y rest : String) (hX : isPlainName X = true)
    (hY : isPlainName Y = true) (pre post : List String) (w : World SimHost)
    (hw : w.host.mount =
      pre ++ ["/dev/" ++ X ++ " on /mnt/" ++ Y ++ " type ext4" ++ rest] ++ post)
    (hdev : ∀ r ∈ pre ++ post, rowSource r ≠ "/dev/" ++ X)
    (hmnt : ∀ r ∈ pre ++ post, containsSub ("on /mnt/" ++ Y ++ " ").data r.data = false) :
    (GetDeviceMountPoint X simExecutor w).1 = ("/mnt/" ++ Y, none) ∧
    (GetDeviceFromMountPoint ("/mnt/" ++ Y) simExecutor w).1 = ("/dev/" ++ X, none) := by
  have hM : isPlainName ("/mnt/" ++ Y) = true := isPlainName_append (by decide) hY
  have hf := mountRow_fields X Y rest hX hY
  have hmap : w.host.mount.map String.data = pre.map String.data ++
      [("/dev/" ++ X ++ " on /mnt/" ++ Y ++ " type ext4" ++ rest).data] ++
      post.map String.data := by
    rw [hw]; simp
  constructor
  · rw [GetDeviceMountPoint_sim X hX w, hmap]
    rw [filter_single (fun r => hasPrefix r ("/dev/" ++ X ++ " on").data)]
    · have hsp : ∀ c ∈ ("/mnt/" ++ Y).data, isSpace c = false := by
        intro c hc
        simp only [String.data_append, List.mem_append] at hc
        rcases hc with hc | hc
        · exact literal_noSpace_mnt c hc
        · exact isPlainName_noSpace hY c hc
      have : awkPrint 3 [("/dev/" ++ X ++ " on /mnt/" ++ Y ++ " type ext4" ++ rest).data] =
          ("/mnt/" ++ Y).data ++ ['\n'] := by
        simp only [awkPrint, List.map, unlines, hf.2]
      rw [this, trimSpace_line _ hsp]
    · intro l hl
      obtain ⟨r, hr, rfl⟩ := List.mem_map.mp hl
      rw [Bool.eq_false_iff]
      intro hp
      exact hdev r (List.mem_append_left _ hr) (rowSource_of_hasPrefix X r hX hp)
    · intro l hl
      obtain ⟨r, hr, rfl⟩ := List.mem_map.mp hl
      rw [Bool.eq_false_iff]
      intro hp
      exact hdev r (List.mem_append_right _ hr) (rowSource_of_hasPrefix X r hX hp)
    · have : ("/dev/" ++ X ++ " on /mnt/" ++ Y ++ " type ext4" ++ rest).data =
          ("/dev/" ++ X ++ " on").data ++ (" /mnt/" ++ Y ++ " type ext4" ++ rest).data := by
        simp
      simp only [this, hasPrefix_append]
  · have hpat : ("on " ++ ("/mnt/" ++ Y) ++ " ").data = ("on /mnt/" ++ Y ++ " ").data := by
      simp
    rw [GetDeviceFromMountPoint_sim _ hM w, hmap, hpat]
    rw [filter_single (fun r => containsSub ("on /mnt/" ++ Y ++ " ").data r)]
    · have hsp : ∀ c ∈ ("/dev/" ++ X).data, isSpace c = false := by
        intro c hc
        simp only [String.data_append, List.mem_append] at hc
        rcases hc with hc | hc
        · exact literal_noSpace_dev c hc
        · exact isPlainName_noSpace hX c hc
      have : awkPrint 1 [("/dev/" ++ X ++ " on /mnt/" ++ Y ++ " type ext4" ++ rest).data] =
          ("/dev/" ++ X).data ++ ['\n'] := by
        simp only [awkPrint, List.map, unlines, hf.1]
      rw [this, trimSpace_line _ hsp]
    · intro l hl
      obtain ⟨r, hr, rfl⟩ := List.mem_map.mp hl
      exact hmnt r (List.mem_append_left _ hr)
    · intro l hl
      obtain ⟨r, hr, rfl⟩ := List.mem_map.mp hl
      exact hmnt r (List.mem_append_right _ hr)
    · have : ("/dev/" ++ X ++ " on /mnt/" ++ Y ++ " type ext4" ++ rest).data =
          ("/dev/" ++ X ++ " ").data ++ (("on /mnt/" ++ Y ++ " ").data ++
            ("type ext4" ++ rest).data) := by
        simp
      simp only [this, containsSub_append_left]



theorem awkPrint_zero (L : List (List Char)) : awkPrint 0 L = unlines L := by
  have : L.map (awkField 0) = L := by
    induction L with
    | nil => rfl
    | cons l L ih => simp [awkField, ih]
  simp [awkPrint, this]

theorem mem_unlines {L : List (List Char)} {l : List Char} {c : Char} (hl : l ∈ L)
    (hc : c ∈ l) : c ∈ unlines L := by
  induction L with
  | nil => cases hl
  | cons a L ih =>
    simp only [unlines, List.mem_append, List.mem_cons]
    rcases List.mem_cons.mp hl with rfl | h
    · exact Or.inl hc
    · exact Or.inr (Or.inr (ih h))

/-- C6 (as amended): for a non-empty device name of plain characters and
every simulated `lsblk` parent-name listing, the pipeline built by
`DoesDeviceHaveChildren` returns `(true, nil)` if at least one row of the
listing equals the device name and `(false, nil)` if none does. -/
theorem DoesDeviceHaveChildren_iff (D : String) (hD : isPlainName D = true) (hne : D ≠ "")
    (w : World SimHost) :
    (DoesDeviceHaveChildren D simExecutor w).1 = (decide (D ∈ w.host.lsblk), none) := by
  rw [DoesDeviceHaveChildren_sim D hD w, awkPrint_zero]
  by_cases hm : D ∈ w.host.lsblk
  · have hL : D.data ∈ (w.host.lsblk.map String.data).filter (fun r => decide (r = D.data)) := by
      rw [List.mem_filter]
      exact ⟨List.mem_map.mpr ⟨D, hm, rfl⟩, by simp⟩
    have hdata : D.data ≠ [] := by
      intro h
      apply hne
      cases D
      simp only at h
      rw [h]
    obtain ⟨c, s, hcs⟩ := List.exists_cons_of_ne_nil hdata
    have hc : c ∈ D.data := by rw [hcs]; exact List.mem_cons_self _ _
    have hns := trimSpace_ne_nil (mem_unlines hL hc) (isPlainName_noSpace hD c hc)
    have : (String.mk (trimSpace (unlines ((w.host.lsblk.map String.data).filter
        (fun r => decide (r = D.data))))) != "") = true := by
      rw [bne_iff_ne]
      intro h
      apply hns
      have := congrArg String.data h
      simpa using this
    rw [this]
    simp [hm]
  · have hL : (w.host.lsblk.map String.data).filter (fun r => decide (r = D.data)) = [] := by
      rw [List.filter_eq_nil_iff]
      intro l hl hp
      obtain ⟨r, hr, rfl⟩ := List.mem_map.mp hl
      have : r = D := by
        have h := of_decide_eq_true hp
        cases r; cases D
        simp only at h
        rw [h]
      exact hm (this ▸ hr)
    rw [hL]
    simp [hm, unlines, trimSpace]

/-! ### Concrete tables -/

/-- C5 (counterexample): `/dev/sdc` is the source of exactly one row of the
table whose mount path `/mnt/a` another source shares, and the reverse lookup
returns both sources; a `.` in the device name selects rows of other devices;
a mount path with a space is cut at the space. -/
theorem mount_lookups_not_inverse :
    ((["/dev/sdc on /mnt/a type ext4 (rw)", "tmpfs on /mnt/a type tmpfs (rw)"].filter
        (fun r => rowSource r == "/dev/sdc")).length = 1 ∧
      (GetDeviceFromMountPoint "/mnt/a" simExecutor
        (simWorld ⟨["/dev/sdc on /mnt/a type ext4 (rw)", "tmpfs on /mnt/a type tmpfs (rw)"],
          []⟩)).1 = ("/dev/sdc\ntmpfs", none)) ∧
    (GetDeviceMountPoint "sd.1" simExecutor
        (simWorld ⟨["/dev/sda1 on / type ext4 (rw)", "/dev/sd.1 on /mnt/b type ext4 (rw)"],
          []⟩)).1 = ("/\n/mnt/b", none) ∧
    (GetDeviceMountPoint "sda" simExecutor (simWorld spacedHost)).1 = ("/mnt/my", none) := by
  decide

/-- C5 (witness): the row of `sdc1` in the example table. -/
theorem mount_lookups_inverse_witness :
    (GetDeviceMountPoint "sdc1" simExecutor (simWorld exampleHost)).1 =
      ("/mnt/" ++ "data", none) ∧
    (GetDeviceFromMountPoint ("/mnt/" ++ "data") simExecutor (simWorld exampleHost)).1 =
      ("/dev/" ++ "sdc1", none) :=
  mount_lookups_inverse "sdc1" "data" " (rw)" (by decide) (by decide)
    ["/dev/sda1 on / type ext4 (rw,relatime)", "/dev/sdb on /mnt/a type ext4 (rw)",
      "/dev/sdb on /mnt/b type ext4 (rw)"]
    ["tmpfs on /mnt/a type tmpfs (rw)"] (simWorld exampleHost) (by decide) (by decide)
    (by decide)

/-- C6 (counterexample): with the device name `sd.` the listing row `sda` is
selected although no row equals the name; with the empty device name an empty
row equals the name and the result is false. -/
theorem DoesDeviceHaveChildren_not_exact :
    ("sd." ∉ exampleHost.lsblk ∧
      (DoesDeviceHaveChildren "sd." simExecutor (simWorld exampleHost)).1 = (true, none)) ∧
    ("" ∈ exampleHost.lsblk ∧
      (DoesDeviceHaveChildren "" simExecutor (simWorld exampleHost)).1 = (false, none)) := by
  decide

/-- C6 (witness): `sda` and `sdc` on the example listing. -/
theorem DoesDeviceHaveChildren_iff_witness :
    (DoesDeviceHaveChildren "sda" simExecutor (simWorld exampleHost)).1 = (true, none) ∧
    (DoesDeviceHaveChildren "sdc" simExecutor (simWorld exampleHost)).1 = (false, none) :=
  ⟨DoesDeviceHaveChildren_iff "sda" (by decide) (by decide) (simWorld exampleHost),
   DoesDeviceHaveChildren_iff "sdc" (by decide) (by decide) (simWorld exampleHost)⟩

/-- C7 (the code at the failing input): `sdb` is reported on two rows of the
example table and `GetDeviceMountPoint` returns both mount paths in one
string, not the mount path of the first matching row. -/
theorem GetDeviceMountPoint_not_first :
    (GetDeviceMountPoint "sdb" simExecutor (simWorld exampleHost)).1 =
      ("/mnt/a\n/mnt/b", none) ∧
    (GetDeviceMountPoint "sdb" simExecutor (simWorld exampleHost)).1 ≠ ("/mnt/a", none) := by
  decide

/-- C8 (the code at the failing input): no row of the example table has
source `/dev/sda.`, yet the pattern built for the device name `sda.` selects
the row of `/dev/sda1` and `GetDeviceMountPoint` returns its mount path
instead of the empty string. -/
theorem GetDeviceMountPoint_unmounted_fails :
    (∀ r ∈ exampleHost.mount, rowSource r ≠ "/dev/" ++ "sda.") ∧
    (GetDeviceMountPoint "sda." simExecutor (simWorld exampleHost)).1 = ("/", none) := by
  decide

/-- The device `sdd` is not in the example table and its lookup is empty. -/
theorem GetDeviceMountPoint_plain_unmounted_example :
    (GetDeviceMountPoint "sdd" simExecutor (simWorld exampleHost)).1 = ("", none) :=
  GetDeviceMountPoint_plain_unmounted "sdd" (by decide) (simWorld exampleHost) (by decide)


/-! ### Concrete runs -/

/-- C1 (witness): exit status 32 is swallowed, exit status 1 and an error that
is not a `CommandError` are returned. -/
theorem UnmountDevice_nil_iff_witness :
    (UnmountDevice "/dev/sdb" (fixedExecutor (some (.commandError 32 "exit status 32"))
      (.ok "")) ⟨(), none, []⟩).1 = none ∧
    (UnmountDevice "/dev/sdb" (fixedExecutor (some (.commandError 1 "exit status 1"))
      (.ok "")) ⟨(), none, []⟩).1 = some "command umount /dev/sdb failed: exit status 1" ∧
    (UnmountDevice "/dev/sdb" (fixedExecutor (some (.otherError "not found"))
      (.ok "")) ⟨(), none, []⟩).1 = some "command umount /dev/sdb failed: not found" ∧
    (UnmountDevice "/dev/sdb" (fixedExecutor none (.ok "")) ⟨(), none, []⟩).1 = none := by
  refine ⟨(UnmountDevice_nil_iff _ _ _).mpr (Or.inr ⟨_, rfl⟩), by decide, by decide,
    (UnmountDevice_nil_iff _ _ _).mpr (Or.inl rfl)⟩

/-- C2 (witness): a failing and a succeeding pipeline. -/
theorem GetDiskUUID_never_errors_witness :
    (GetDiskUUID "sdb" (fixedExecutor none (.error (.commandError 2 "exit status 2")))
      ⟨(), none, []⟩).1 = ("", none) ∧
    (GetDiskUUID "sdb" (fixedExecutor none (.ok "31273B25-7B2E-4D31-BAC9-EE77E62EAC71"))
      ⟨(), none, []⟩).1 = ("31273B25-7B2E-4D31-BAC9-EE77E62EAC71", none) :=
  ⟨(GetDiskUUID_never_errors _ _ _).2.1 _ rfl, (GetDiskUUID_never_errors _ _ _).2.2 _ rfl⟩

/-- C3 (witness): a failing pipeline and one that succeeds with no output. -/
theorem GetDeviceFilesystem_error_iff_witness :
    (GetDeviceFilesystem "sdb" (fixedExecutor none (.error (.otherError "no shell")))
      ⟨(), none, []⟩).1.2 = some "command get filesystem type for sdb failed: no shell" ∧
    (GetDeviceFilesystem "sdb" (fixedExecutor none (.ok "")) ⟨(), none, []⟩).1 = ("", none) :=
  ⟨((GetDeviceFilesystem_error_iff _ _ _).1 _ rfl).2.trans (by decide),
    (GetDeviceFilesystem_error_iff _ _ _).2 _ rfl⟩

/-- C9 (witness): three calls where the first lookup fails and the second
succeeds: two lookups in all, the user cached, two executor invocations. -/
theorem currentUser_cache_witness :
    (chownAll scriptedOS scriptedExecutor ["/a", "/b", "/c"]
      ⟨[.error "user: unknown", .ok exampleUser], none, []⟩).currentUser = some exampleUser ∧
    lookups (chownAll scriptedOS scriptedExecutor ["/a", "/b", "/c"]
      ⟨[.error "user: unknown", .ok exampleUser], none, []⟩).trace = 2 ∧
    invocations (chownAll scriptedOS scriptedExecutor ["/a", "/b", "/c"]
      ⟨[.error "user: unknown", .ok exampleUser], none, []⟩).trace = 2 ∧
    lookups (chownAll scriptedOS scriptedExecutor ["/a", "/b"]
      ⟨[], none, []⟩).trace = 0 + ["/a", "/b"].length := by
  refine ⟨by decide, by decide, by decide,
    (currentUser_cache scriptedOS scriptedExecutor ⟨[], none, []⟩).2.2 ["/a", "/b"] rfl
      (by decide)⟩

/-- C4 (counterexample): with the device path `-o`, the plain form that
`MountDevice` hands to the executor contains `-o`. -/
theorem MountDevice_plain_form_with_dash_o :
    (MountDevice idleOS "-o" "/mnt/d" recordingExecutor ⟨[], none, []⟩).2.host =
      [Event.executeCommand "mount -o" "sudo" ["mount", "-o", "/mnt/d"]] ∧
    "-o" ∈ ["mount", "-o", "/mnt/d"] := by
  decide

/-- C4 (witness): the calls a recording executor receives for a mount with
options and for a plain mount. -/
theorem MountDeviceWithOptions_arguments_witness :
    (MountDeviceWithOptions idleOS "/dev/sdd" "/mnt/d" "rw,noatime" recordingExecutor
      ⟨[], none, []⟩).2.host =
      [Event.executeCommand "mount /dev/sdd" "sudo"
        ["mount", "-o", "rw,noatime", "/dev/sdd", "/mnt/d"]] ∧
    (MountDevice idleOS "/dev/sdd" "/mnt/d" recordingExecutor ⟨[], none, []⟩).2.host =
      [Event.executeCommand "mount /dev/sdd" "sudo" ["mount", "/dev/sdd", "/mnt/d"]] :=
  ⟨(MountDeviceWithOptions_arguments idleOS "/dev/sdd" "/mnt/d" "rw,noatime"
      recordingExecutor ⟨[], none, []⟩).1.2.1.trans (by decide),
   (MountDeviceWithOptions_arguments idleOS "/dev/sdd" "/mnt/d" ""
      recordingExecutor ⟨[], none, []⟩).2.1.2.1.trans (by decide)⟩

/-- C10 (witness): with a cached user `ChownForCurrentUser` invokes the
executor once; so does `UnmountDevice`. -/
theorem one_invocation_per_call_witness :
    (ChownForCurrentUser (countingOS idleOS) "/data" (countingExecutor simExecutor)
      ⟨(exampleHost, 0), some exampleUser, []⟩).host.2 = 1 ∧
    (UnmountDevice "/dev/sdb" (countingExecutor simExecutor)
      ⟨(exampleHost, 0), none, []⟩).2.host.2 = 0 + 1 :=
  ⟨((one_invocation_per_call idleOS simExecutor ⟨(exampleHost, 0), some exampleUser, []⟩
      "/data" "" "").2.2.2.2.2.2.2.2.2).trans (by decide),
   (one_invocation_per_call idleOS simExecutor ⟨(exampleHost, 0), none, []⟩
      "/dev/sdb" "" "").2.2.2.2.2.2.2.1⟩

end Sys
